import Mathlib

/-!
# GlobalDigitalTimes auto-news pipeline — verification development

A shallow embedding of the core of the `auto_news` package
(`event_classifier.py`, `fast_sources.py`, `orchestrator.py`,
`publisher.py`) together with theorems settling the frozen claims
about it.

Conventions of the embedding:
* Python strings are Lean `String`s; `str.lower`/`str.upper` are
  modelled as per-character ASCII case mapping, `str.strip` as
  whitespace removal at both ends, and the Python substring test
  `pat in text` as an explicitly defined sublist-containment test on
  the character lists.
* Python dictionaries with loosely guaranteed keys are structures
  whose possibly-missing fields are `Option`s; every `dict.get(k, d)`
  of the source becomes `Option.getD`.
* Python `set[str]` is `Finset String`; intersection size is
  `Finset.card` of `∩`.
* The external Groq call is a parameter of type `Except String String`:
  `.error` is the exception path of the `try`, `.ok content` the
  returned message content.
* All functions are total and executable, as the source functions are
  on the inputs the claims quantify over.
-/

/-! ## String primitives (Python `lower`, `upper`, `strip`, `in`) -/

/-- Per-character ASCII lower-casing, modelling Python `str.lower()`. -/
def pyLower (s : String) : String := String.mk (s.toList.map Char.toLower)

/-- Per-character ASCII upper-casing, modelling Python `str.upper()`. -/
def pyUpper (s : String) : String := String.mk (s.toList.map Char.toUpper)

/-- Modelling Python `str.strip()` (whitespace removal at both ends). -/
def pyStrip (s : String) : String :=
  String.mk (((s.toList.dropWhile Char.isWhitespace).reverse.dropWhile
    Char.isWhitespace).reverse)

/-- `startsList t p = true` iff `p` is an initial segment of `t`. -/
def startsList : List Char → List Char → Bool
  | _, [] => true
  | [], _ :: _ => false
  | c :: cs, p :: ps => c == p && startsList cs ps

/-- `hasSubList t p = true` iff `p` occurs contiguously inside `t`. -/
def hasSubList : List Char → List Char → Bool
  | [], p => p.isEmpty
  | c :: cs, p => startsList (c :: cs) p || hasSubList cs p

/-- Python's `pat in text` substring membership test on strings. -/
def strContains (text pat : String) : Bool :=
  hasSubList text.toList pat.toList

/-! ## `event_classifier.py` — data model and keyword pass -/

/-- The seven event types of `EVENT_PRIORITY`. -/
inductive EventType where
  | BREAKING
  | ACQUISITION
  | LAYOFFS
  | LAWSUIT
  | FUNDING
  | VIRAL
  | ROUTINE
deriving DecidableEq, Repr

open EventType

/-- `EVENT_PRIORITY`: the fixed event-type → publishing-priority table. -/
def EVENT_PRIORITY : EventType → Nat
  | BREAKING => 1
  | ACQUISITION => 1
  | LAYOFFS => 1
  | LAWSUIT => 1
  | FUNDING => 2
  | VIRAL => 2
  | ROUTINE => 3

/-- `EVENT_SIGNALS`: the fixed ordered table of trigger phrases, in the
source's (insertion-ordered dict) iteration order. -/
def EVENT_SIGNALS : List (EventType × List String) :=
  [ (BREAKING,
      ["launches", "released", "announces", "unveils", "introduces", "debuts",
       "now available", "ships", "rolls out", "goes live", "officially"]),
    (ACQUISITION,
      ["acquires", "acquisition", "buys", "bought", "merger", "deal",
       "takes over", "purchase"]),
    (LAYOFFS,
      ["layoffs", "lays off", "cuts", "job cuts", "eliminates", "reduces workforce",
       "restructure", "downsizing", "firing"]),
    (LAWSUIT,
      ["sues", "lawsuit", "sued", "court", "legal", "antitrust", "investigation",
       "ban", "blocks", "halts", "orders", "ruling"]),
    (FUNDING,
      ["raises", "funding", "valuation", "series a", "series b", "series c",
       "investment", "backed", "secures"]),
    (VIRAL,
      ["trending", "viral", "explodes", "blows up", "everyone is talking"]) ]

/-- `HIGH_PROFILE_ENTITIES`. -/
def HIGH_PROFILE_ENTITIES : List String :=
  ["openai", "google", "apple", "microsoft", "meta", "amazon", "nvidia",
   "tesla", "anthropic", "mistral", "chatgpt", "gpt-5", "gpt-4", "gemini",
   "claude", "waymo", "x.ai", "deepmind", "stability ai", "midjourney"]

/-- The classification dict produced by the classifiers.  `priority` is
an `Option` because downstream consumers read it with
`ec.get('priority', 3)`; the classifiers themselves always set it. -/
structure Classification where
  event_type : EventType
  priority : Option Nat
  confidence : String
  high_profile : Bool
  viral_boost : Bool
deriving DecidableEq, Repr

/-- Whether a row of the signal table has a phrase occurring in
`text` (the membership test the source's inner `any(...)` performs). -/
def rowMatches (text : String) (row : EventType × List String) : Bool :=
  row.2.any (fun k => strContains text k)

/-- `classify_event_fast(title, summary)`: lower-case `f"{title} {summary}"`,
flag high-profile entities, and return the first event type of
`EVENT_SIGNALS` with a matching trigger phrase, else `ROUTINE`. -/
def classify_event_fast (title : String) (summary : String := "") : Classification :=
  let text := pyLower (title ++ " " ++ summary)
  let hp := HIGH_PROFILE_ENTITIES.any (fun e => strContains text e)
  match EVENT_SIGNALS.find? (rowMatches text) with
  | some p =>
      { event_type := p.1, priority := some (EVENT_PRIORITY p.1),
        confidence := "keyword_match", high_profile := hp, viral_boost := false }
  | none =>
      { event_type := ROUTINE, priority := some (EVENT_PRIORITY ROUTINE),
        confidence := "default", high_profile := hp, viral_boost := false }

example : (classify_event_fast "OpenAI launches GPT-5" "").event_type = BREAKING := by decide
example : (classify_event_fast "Weekly AI newsletter roundup" "").event_type = ROUTINE := by decide
example : (classify_event_fast "Anthropic raises 2B" "").event_type = FUNDING := by decide

/-- `find?` returns the element at index `i` when that element satisfies
the predicate and no earlier element does. -/
theorem find?_eq_some_of_first {α : Type} (p : α → Bool) (l : List α)
    (i : Fin l.length) (hi : p (l.get i) = true)
    (hbefore : ∀ j : Fin l.length, (j : Nat) < (i : Nat) → p (l.get j) = false) :
    l.find? p = some (l.get i) := by
  induction l with
  | nil => exact absurd i.2 (by simp)
  | cons x t ih =>
    rcases i with ⟨iv, hiv⟩
    cases iv with
    | zero =>
      have hx : p x = true := by simpa using hi
      simp [List.find?_cons_of_pos (l := t) hx]
    | succ n =>
      have hx : p x = false := by
        simpa using hbefore ⟨0, by simp⟩ (Nat.succ_pos n)
      have hrec := ih ⟨n, by simpa using Nat.lt_of_succ_lt_succ hiv⟩
        (by simpa using hi)
        (fun j hj => by
          simpa using hbefore ⟨j + 1, Nat.succ_lt_succ j.2⟩
            (Nat.succ_lt_succ hj))
      rw [List.find?_cons_of_neg (l := t) (by simp [hx])]
      simpa using hrec

/-- **C3.** The keyword pass tests the lower-cased concatenation of title
and summary against the fixed ordered `EVENT_SIGNALS` table; the first
event type in the fixed iteration order (BREAKING, ACQUISITION, LAYOFFS,
LAWSUIT, FUNDING, VIRAL) with any matching trigger phrase wins regardless
of how many phrases other types match; if no phrase matches, the type is
ROUTINE; and the returned priority always equals the fixed
`EVENT_PRIORITY` table value for the returned event type. -/
theorem classify_event_fast_first_match (title summary : String) :
    (classify_event_fast title summary).priority
      = some (EVENT_PRIORITY (classify_event_fast title summary).event_type)
    ∧ ((∀ row ∈ EVENT_SIGNALS,
          rowMatches (pyLower (title ++ " " ++ summary)) row = false) →
        (classify_event_fast title summary).event_type = ROUTINE)
    ∧ (∀ i : Fin EVENT_SIGNALS.length,
        rowMatches (pyLower (title ++ " " ++ summary)) (EVENT_SIGNALS.get i) = true →
        (∀ j : Fin EVENT_SIGNALS.length, (j : Nat) < (i : Nat) →
          rowMatches (pyLower (title ++ " " ++ summary)) (EVENT_SIGNALS.get j) = false) →
        (classify_event_fast title summary).event_type = (EVENT_SIGNALS.get i).1) := by
  refine ⟨?_, ?_, ?_⟩
  · rcases hf : EVENT_SIGNALS.find? (rowMatches (pyLower (title ++ " " ++ summary)))
      with _ | p <;> simp [classify_event_fast, hf]
  · intro hall
    rcases hf : EVENT_SIGNALS.find? (rowMatches (pyLower (title ++ " " ++ summary)))
      with _ | p
    · simp [classify_event_fast, hf]
    · have hmem := List.mem_of_find?_eq_some hf
      have hsat := List.find?_some hf
      rw [hall p hmem] at hsat
      exact absurd hsat (by simp)
  · intro i hi hbefore
    have hf := find?_eq_some_of_first
      (rowMatches (pyLower (title ++ " " ++ summary))) EVENT_SIGNALS i hi hbefore
    simp [classify_event_fast, hf]

/-- Witness for C3 at a concrete input: "OpenAI launches GPT-5" matches
the first table row (BREAKING) and gets priority 1. -/
theorem classify_event_fast_first_match_witness :
    (classify_event_fast "OpenAI launches GPT-5" "").event_type = BREAKING
    ∧ (classify_event_fast "OpenAI launches GPT-5" "").priority = some 1 := by
  have h := classify_event_fast_first_match "OpenAI launches GPT-5" ""
  have htype := h.2.2 ⟨0, by decide⟩ (by decide)
    (fun j hj => absurd hj (Nat.not_lt_zero _))
  have hety : (classify_event_fast "OpenAI launches GPT-5" "").event_type = BREAKING := by
    simpa using htype
  exact ⟨hety, by rw [h.1, hety]; rfl⟩

/-! ## `event_classifier.py` — the Groq pass (`classify_event_groq`) -/

/-- The keys of the `EVENT_PRIORITY` dict as label strings paired with
the event type they denote, in insertion order.  `result in
EVENT_PRIORITY` tests membership in these keys, and the recovery loop
`for et in EVENT_PRIORITY.keys()` iterates them in this order. -/
def EVENT_PRIORITY_LABELS : List (String × EventType) :=
  [("BREAKING", BREAKING), ("ACQUISITION", ACQUISITION), ("LAYOFFS", LAYOFFS),
   ("LAWSUIT", LAWSUIT), ("FUNDING", FUNDING), ("VIRAL", VIRAL),
   ("ROUTINE", ROUTINE)]

/-- `classify_event_groq(client, title, summary)`.  The external call is
the parameter `callResult`: `.error e` models the `except Exception`
path (which returns the keyword result verbatim), `.ok content` models
`response.choices[0].message.content`, which the code strips,
upper-cases, looks up exactly among the `EVENT_PRIORITY` keys, then, if
that fails, scans for the first key occurring as a substring, and only
then falls back to the keyword result's event type. -/
def classify_event_groq (callResult : Except String String)
    (title : String) (summary : String := "") : Classification :=
  let fast := classify_event_fast title summary
  match callResult with
  | .error _ => fast
  | .ok content =>
    let result := pyUpper (pyStrip content)
    let event_type :=
      match EVENT_PRIORITY_LABELS.find? (fun p => p.1 == result) with
      | some p => p.2
      | none =>
        match EVENT_PRIORITY_LABELS.find? (fun p => strContains result p.1) with
        | some p => p.2
        | none => fast.event_type
    { event_type := event_type, priority := some (EVENT_PRIORITY event_type),
      confidence := "groq", high_profile := fast.high_profile,
      viral_boost := false }

/-- Helper: the keyword pass always returns the table priority of its
event type. -/
theorem classify_event_fast_priority (title summary : String) :
    (classify_event_fast title summary).priority
      = some (EVENT_PRIORITY (classify_event_fast title summary).event_type) := by
  rcases hf : EVENT_SIGNALS.find? (rowMatches (pyLower (title ++ " " ++ summary)))
    with _ | p <;> simp [classify_event_fast, hf]

/-- **C4 counterexample.** The claim says any returned label that is not
one of the seven valid labels makes the result fall back to the keyword
pass.  The label `"breaking news"` (normalised: `"BREAKING NEWS"`) is
not one of the seven labels, the keyword pass on empty text yields
ROUTINE, yet the Groq pass returns BREAKING: the substring-recovery
loop fires instead of the fallback. -/
theorem classify_event_groq_invalid_label_not_fallback :
    (EVENT_PRIORITY_LABELS.map Prod.fst).contains
      (pyUpper (pyStrip "breaking news")) = false
    ∧ (classify_event_fast "" "").event_type = ROUTINE
    ∧ (classify_event_groq (Except.ok "breaking news") "" "").event_type = BREAKING := by
  decide

/-- **C4 (amended).** If the external call raises, the classification
result is the keyword-pass result verbatim; if the returned label, once
stripped and upper-cased, neither equals nor contains any of the seven
valid labels as a substring, the event type and priority fall back to
the keyword-pass result; in both cases no error propagates (the
embedding is a total function). -/
theorem classify_event_groq_fallback (title summary err content : String)
    (hexact : ∀ p ∈ EVENT_PRIORITY_LABELS, p.1 ≠ pyUpper (pyStrip content))
    (hsub : ∀ p ∈ EVENT_PRIORITY_LABELS,
      strContains (pyUpper (pyStrip content)) p.1 = false) :
    classify_event_groq (Except.error err) title summary
      = classify_event_fast title summary
    ∧ (classify_event_groq (Except.ok content) title summary).event_type
      = (classify_event_fast title summary).event_type
    ∧ (classify_event_groq (Except.ok content) title summary).priority
      = (classify_event_fast title summary).priority := by
  have hfind1 : EVENT_PRIORITY_LABELS.find?
      (fun p => p.1 == pyUpper (pyStrip content)) = none :=
    List.find?_eq_none.mpr (fun p hp => by simpa using hexact p hp)
  have hfind2 : EVENT_PRIORITY_LABELS.find?
      (fun p => strContains (pyUpper (pyStrip content)) p.1) = none :=
    List.find?_eq_none.mpr (fun p hp => by simp [hsub p hp])
  refine ⟨rfl, ?_, ?_⟩
  · simp [classify_event_groq, hfind1, hfind2]
  · simp [classify_event_groq, hfind1, hfind2,
      classify_event_fast_priority title summary]

/-- Witness for C4 (amended): the label `"gibberish"` matches nothing,
so the Groq pass degrades to the keyword result on a concrete input. -/
theorem classify_event_groq_fallback_witness :
    classify_event_groq (Except.error "boom") "Some title" ""
      = classify_event_fast "Some title" ""
    ∧ (classify_event_groq (Except.ok "gibberish") "Some title" "").event_type
      = (classify_event_fast "Some title" "").event_type := by
  have h := classify_event_groq_fallback "Some title" "" "boom" "gibberish"
    (by decide) (by decide)
  exact ⟨h.1, h.2.1⟩

/-! ## `fast_sources.py` — keyword extraction (`extract_keywords`) -/

/-- A regex word character (`\w`): letters, digits, underscore. -/
def isWordChar (c : Char) : Bool := c.isAlpha || c.isDigit || c == '_'

/-- A character the class `[a-z]` accepts. -/
def isLowerAlpha (c : Char) : Bool := 'a' ≤ c && c ≤ 'z'

/-- Splits a character list into its maximal runs of word characters
(the candidate sites for a `\b...\b` regex match). -/
def wordRunsAux : List Char → List Char → List (List Char)
  | [], acc => if acc.isEmpty then [] else [acc.reverse]
  | c :: rest, acc =>
    if isWordChar c then wordRunsAux rest (c :: acc)
    else if acc.isEmpty then wordRunsAux rest []
    else acc.reverse :: wordRunsAux rest []

/-- `re.findall(r'\b[a-z]{3,}\b', text)`: the maximal word-character
runs of `text` consisting solely of `[a-z]` and of length at least 3
(a run containing a digit or underscore has no interior word boundary,
so it contributes no match). -/
def regexTokens (text : String) : List String :=
  (wordRunsAux text.toList []).filterMap
    (fun r => if r.all isLowerAlpha && decide (3 ≤ r.length)
              then some (String.mk r) else none)

/-- The fixed stop-word list of `extract_keywords`. -/
def stop_words : List String :=
  ["the", "and", "for", "are", "but", "not", "you", "all", "can", "had",
   "her", "was", "one", "our", "out", "day", "get", "has", "him", "his",
   "how", "its", "may", "new", "now", "old", "see", "way", "who", "did",
   "been", "have", "from", "this", "that", "with", "they", "will", "what",
   "when", "your", "said", "each", "just", "like", "over", "such", "into",
   "year", "some", "could", "them", "than", "then", "being", "about", "after"]

/-- The fixed high-value allow-list (`tech_terms`) of `extract_keywords`. -/
def tech_terms : List String :=
  ["openai", "google", "apple", "microsoft", "meta", "amazon", "nvidia",
   "tesla", "anthropic", "chatgpt", "gpt", "gemini", "claude", "waymo",
   "robotaxi", "autonomous", "robot", "drone", "model", "launch", "release",
   "acquisition", "funding", "startup", "developer", "programming", "code"]

/-- `extract_keywords(text)`: lower-case, take the `[a-z]{3,}` tokens,
and keep a token `word` iff
`word in tech_terms or (word not in stop_words and len(word) > 3)`. -/
def extract_keywords (text : String) : Finset String :=
  ((regexTokens (pyLower text)).filter
    (fun w => tech_terms.contains w
      || (!stop_words.contains w && decide (3 < w.length)))).toFinset

/-- The keyword set as the claim's words describe it (for comparison
with `extract_keywords`): every extracted lower-cased alphabetic token
of length at least 3 that is not in the stop-word list, plus every
token in the allow-list. -/
def extract_keywords_claim (text : String) : Finset String :=
  ((regexTokens (pyLower text)).filter
    (fun w => tech_terms.contains w || !stop_words.contains w)).toFinset

/-- **C5 counterexample.** `"fox"` is a lower-cased alphabetic token of
length 3 that is in neither the stop-word list nor the allow-list; the
claim says it is kept, but the code requires `len(word) > 3` for
non-allow-listed words and drops it. -/
theorem extract_keywords_drops_length_three :
    extract_keywords "fox" = ∅
    ∧ extract_keywords_claim "fox" = {"fox"}
    ∧ extract_keywords "fox" ≠ extract_keywords_claim "fox" := by
  decide

/-- **C5 (amended).** The keyword set contains exactly: every extracted
lower-cased alphabetic token (the `[a-z]{3,}` matches) of length at
least **4** that is not in the stop-word list, plus every extracted
token that is a member of the allow-list regardless of its length or
stop-word status. -/
theorem extract_keywords_membership (text w : String) :
    w ∈ extract_keywords text ↔
      (w ∈ regexTokens (pyLower text)
        ∧ (tech_terms.contains w = true
            ∨ (stop_words.contains w = false ∧ 4 ≤ w.length))) := by
  constructor
  · intro h
    rcases List.mem_filter.mp (List.mem_toFinset.mp h) with ⟨hmem, hcond⟩
    refine ⟨hmem, ?_⟩
    rcases Bool.or_eq_true _ _ |>.mp hcond with h1 | h2
    · exact Or.inl h1
    · rcases Bool.and_eq_true _ _ |>.mp h2 with ⟨hs, hl⟩
      exact Or.inr ⟨by simpa using hs, by
        have := of_decide_eq_true hl; omega⟩
  · intro ⟨hmem, hcond⟩
    refine List.mem_toFinset.mpr (List.mem_filter.mpr ⟨hmem, ?_⟩)
    rcases hcond with h1 | ⟨hs, hl⟩
    · exact Bool.or_eq_true _ _ |>.mpr (Or.inl h1)
    · refine Bool.or_eq_true _ _ |>.mpr
        (Or.inr (Bool.and_eq_true _ _ |>.mpr ⟨?_, ?_⟩))
      · simpa using hs
      · exact decide_eq_true (by omega)

/-! ## `fast_sources.py` — trending signals and article matching -/

/-- Python `s[:n]` on a string. -/
def pyTake (n : Nat) (s : String) : String := String.mk (s.toList.take n)

/-- A trending-signal dict.  `score` and `keywords` are `Option`s
because `match_article_to_signals` reads them with `signal.get(...)`;
the fetchers always populate them. -/
structure Signal where
  title : String := ""
  score : Option Nat := none
  keywords : Option (Finset String) := none
deriving DecidableEq

/-- The structure returned by `get_all_trending_signals`, restricted to
the three per-source lists that `match_article_to_signals` iterates. -/
structure TrendingSignals where
  reddit : List Signal := []
  hackernews : List Signal := []
  github : List Signal := []
deriving DecidableEq

/-- The match-info dict built when a signal beats the current best. -/
structure MatchInfo where
  matched : Bool
  signal_source : String
  signal_title : String
  signal_score : Nat
  matched_keywords : Finset String
  match_strength : Nat
  combined_score : Nat
deriving DecidableEq

/-- An RSS article dict, restricted to the fields the verified code
reads.  Fields the pipeline may leave absent are `Option`s. -/
structure Article where
  id : String := ""
  title : String := ""
  summary : String := ""
  metadata_slug : Option String := none
  event_classification : Option Classification := none
  viral_match : Option MatchInfo := none
deriving DecidableEq

/-- The `for source in ["reddit", "hackernews", "github"]` double loop
flattened: every signal paired with its source name, in iteration
order. -/
def labeledSignals (signals : TrendingSignals) : List (String × Signal) :=
  signals.reddit.map (fun s => ("reddit", s))
    ++ signals.hackernews.map (fun s => ("hackernews", s))
    ++ signals.github.map (fun s => ("github", s))

/-- `extract_keywords(f"{article.title} {article.summary}".lower())`. -/
def articleKeywords (a : Article) : Finset String :=
  extract_keywords (pyLower (a.title ++ " " ++ a.summary))

/-- `signal.get("keywords", set())`. -/
def signalKeywords (s : Signal) : Finset String := s.keywords.getD ∅

/-- `len(matches)` for a labeled signal: the keyword-intersection size. -/
def sigStrength (akw : Finset String) (x : String × Signal) : Nat :=
  (akw ∩ signalKeywords x.2).card

/-- `match_count * signal.get("score", 1)`. -/
def sigCombined (akw : Finset String) (x : String × Signal) : Nat :=
  sigStrength akw x * x.2.score.getD 1

/-- `match_count >= min_matches`. -/
def sigMatching (akw : Finset String) (mm : Nat) (x : String × Signal) : Bool :=
  decide (mm ≤ sigStrength akw x)

/-- The `best_match` dict the source builds for a winning signal. -/
def mkMatchInfo (src : String) (s : Signal) (inter : Finset String) : MatchInfo :=
  { matched := true, signal_source := src, signal_title := pyTake 100 s.title,
    signal_score := s.score.getD 0, matched_keywords := inter,
    match_strength := inter.card, combined_score := inter.card * s.score.getD 1 }

/-- One iteration of the source's loop body: update `(best_match,
best_score)` when the signal matches and strictly beats the best. -/
def matchStep (akw : Finset String) (mm : Nat)
    (acc : Option MatchInfo × Nat) (x : String × Signal) : Option MatchInfo × Nat :=
  if sigMatching akw mm x then
    if acc.2 < sigCombined akw x
    then (some (mkMatchInfo x.1 x.2 (akw ∩ signalKeywords x.2)), sigCombined akw x)
    else acc
  else acc

/-- `match_article_to_signals(article, signals, min_matches=2)`:
fold the loop body over all labeled signals starting from
`(None, 0)` and return the final `best_match`. -/
def match_article_to_signals (article : Article) (signals : TrendingSignals)
    (min_matches : Nat := 2) : Option MatchInfo :=
  ((labeledSignals signals).foldl
    (matchStep (articleKeywords article) min_matches) (none, 0)).1

/-- The maximum of `match_count * score` over the matching signals of
`l` (`0` when none matches). -/
def bestCombined (akw : Finset String) (mm : Nat) (l : List (String × Signal)) : Nat :=
  l.foldr (fun x r => if sigMatching akw mm x then max (sigCombined akw x) r else r) 0

theorem matchStep_pos {akw : Finset String} {mm : Nat} {acc : Option MatchInfo × Nat}
    {x : String × Signal} (hm : sigMatching akw mm x = true)
    (hlt : acc.2 < sigCombined akw x) :
    matchStep akw mm acc x
      = (some (mkMatchInfo x.1 x.2 (akw ∩ signalKeywords x.2)), sigCombined akw x) := by
  simp [matchStep, hm, hlt]

theorem matchStep_neg {akw : Finset String} {mm : Nat} {acc : Option MatchInfo × Nat}
    {x : String × Signal}
    (h : sigMatching akw mm x = false ∨ ¬ acc.2 < sigCombined akw x) :
    matchStep akw mm acc x = acc := by
  rcases h with h | h
  · simp [matchStep, h]
  · by_cases hm : sigMatching akw mm x = true
    · simp [matchStep, hm, h]
    · simp [matchStep, hm]

theorem bestCombined_cons (akw : Finset String) (mm : Nat)
    (x : String × Signal) (t : List (String × Signal)) :
    bestCombined akw mm (x :: t)
      = if sigMatching akw mm x
        then max (sigCombined akw x) (bestCombined akw mm t)
        else bestCombined akw mm t := rfl

/-- The running best score of the loop is the maximum of the initial
score and the best combined score over the remaining signals. -/
theorem foldl_matchStep_snd (akw : Finset String) (mm : Nat)
    (l : List (String × Signal)) :
    ∀ (m : Option MatchInfo) (v : Nat),
      (l.foldl (matchStep akw mm) (m, v)).2 = max v (bestCombined akw mm l) := by
  induction l with
  | nil => intro m v; simp [bestCombined]
  | cons x t ih =>
    intro m v
    rw [List.foldl_cons, bestCombined_cons]
    by_cases hm : sigMatching akw mm x = true
    · by_cases hlt : v < sigCombined akw x
      · rw [matchStep_pos hm hlt, ih, hm, if_pos rfl]
        omega
      · rw [matchStep_neg (Or.inr hlt), ih, hm, if_pos rfl]
        omega
    · rw [matchStep_neg (Or.inl (by simpa using hm)), ih,
        if_neg (by simpa using hm)]


/-- The final best match of the loop: if some remaining signal matches
with a combined score beating the initial best score, the result is the
first signal attaining the maximal combined score; otherwise the
initial best match survives. -/
theorem foldl_matchStep_fst (akw : Finset String) (mm : Nat)
    (l : List (String × Signal)) :
    ∀ (m : Option MatchInfo) (v : Nat),
      (l.foldl (matchStep akw mm) (m, v)).1
        = if v < bestCombined akw mm l
          then (l.find? (fun x => sigMatching akw mm x
                  && (sigCombined akw x == bestCombined akw mm l))).map
                 (fun x => mkMatchInfo x.1 x.2 (akw ∩ signalKeywords x.2))
          else m := by
  induction l with
  | nil => intro m v; simp [bestCombined]
  | cons x t ih =>
    intro m v
    rw [List.foldl_cons]
    by_cases hm : sigMatching akw mm x = true
    · by_cases hcb : sigCombined akw x < bestCombined akw mm t
      · have hB : bestCombined akw mm (x :: t) = bestCombined akw mm t := by
          rw [bestCombined_cons, if_pos hm]; omega
        have hne : (sigCombined akw x == bestCombined akw mm t) = false := by
          simpa using Nat.ne_of_lt hcb
        by_cases hlt : v < sigCombined akw x
        · rw [matchStep_pos hm hlt, ih, hB,
            List.find?_cons_of_neg _ (by simp [hm, hne]),
            if_pos hcb, if_pos (show v < bestCombined akw mm t by omega)]
        · rw [matchStep_neg (Or.inr hlt), ih, hB,
            List.find?_cons_of_neg _ (by simp [hm, hne])]
      · have hB : bestCombined akw mm (x :: t) = sigCombined akw x := by
          rw [bestCombined_cons, if_pos hm]; omega
        by_cases hlt : v < sigCombined akw x
        · rw [matchStep_pos hm hlt, ih, hB,
            List.find?_cons_of_pos _ (by simp [hm]),
            if_neg hcb, if_pos hlt]
          rfl
        · rw [matchStep_neg (Or.inr hlt), ih, hB,
            if_neg (show ¬ v < bestCombined akw mm t by omega),
            if_neg hlt]
    · have hm' : sigMatching akw mm x = false := by simpa using hm
      have hB : bestCombined akw mm (x :: t) = bestCombined akw mm t := by
        rw [bestCombined_cons, if_neg (by simp [hm'])]
      rw [matchStep_neg (Or.inl hm'), ih, hB,
        List.find?_cons_of_neg _ (by simp [hm'])]

/-- **C6 (amended).** An article matches a signal only if the
keyword-intersection size is at least `min_matches` (encoded by
`sigMatching` inside the selection), and the selected signal is the one
maximizing `intersection_size × engagement_score` over all matching
signals in iteration order reddit, hackernews, github — ties keeping
the first found — **provided the maximal combined score is strictly
positive**; when every matching signal has combined score 0 (in
particular when no signal matches), no match is returned. -/
theorem match_article_to_signals_argmax (article : Article)
    (signals : TrendingSignals) (mm : Nat) :
    match_article_to_signals article signals mm
      = if 0 < bestCombined (articleKeywords article) mm (labeledSignals signals)
        then ((labeledSignals signals).find? (fun x =>
                sigMatching (articleKeywords article) mm x
                  && (sigCombined (articleKeywords article) x
                      == bestCombined (articleKeywords article) mm
                           (labeledSignals signals)))).map
               (fun x => mkMatchInfo x.1 x.2
                 (articleKeywords article ∩ signalKeywords x.2))
        else none := by
  rw [match_article_to_signals, foldl_matchStep_fst]

/-- A concrete matching signal with engagement score 0. -/
def zeroScoreSignal : Signal :=
  { title := "alpha beta news", score := some 0,
    keywords := some {"alpha", "beta"} }

/-- A concrete article whose keyword set is `{alpha, beta}`. -/
def alphaBetaArticle : Article := { title := "alpha beta" }

/-- A signal set whose only entry is the zero-score signal. -/
def zeroScoreSignals : TrendingSignals := { reddit := [zeroScoreSignal] }

/-- **C6 counterexample.** The zero-score reddit signal matches the
article (intersection size 2 ≥ 2), so the claim says it — being the
sole maximizer of `intersection × engagement` — is selected; the code
returns no match, because selection requires the combined score to
strictly exceed the initial best score 0. -/
theorem match_article_to_signals_zero_score_counterexample :
    sigMatching (articleKeywords alphaBetaArticle) 2
      ("reddit", zeroScoreSignal) = true
    ∧ ("reddit", zeroScoreSignal) ∈ labeledSignals zeroScoreSignals
    ∧ match_article_to_signals alphaBetaArticle zeroScoreSignals 2 = none := by
  decide

/-! ## `fast_sources.py` — viral boosting (`boost_viral_articles`) -/

/-- The loop body of `boost_viral_articles` for one article: record the
match, and upgrade `event_classification` to VIRAL/priority 2 only when
it is present with current event type ROUTINE. -/
def boostOne (signals : TrendingSignals) (a : Article) : Article :=
  match match_article_to_signals a signals with
  | none => a
  | some m =>
    let a1 := { a with viral_match := some m }
    match a1.event_classification with
    | none => a1
    | some ec =>
      if ec.event_type = ROUTINE then
        let ec' : Classification :=
          { ec with event_type := VIRAL, priority := some 2,
                    viral_boost := true }
        { a1 with event_classification := some ec' }
      else a1

/-- `boost_viral_articles(articles, signals)` (with pre-fetched
signals): apply the loop body to every article. -/
def boost_viral_articles (articles : List Article)
    (signals : TrendingSignals) : List Article :=
  articles.map (boostOne signals)

/-- Helper: when every matching signal has engagement score 0, the best
combined score is 0. -/
theorem bestCombined_eq_zero {akw : Finset String} {mm : Nat}
    {l : List (String × Signal)}
    (h : ∀ x ∈ l, sigMatching akw mm x = true → x.2.score = some 0) :
    bestCombined akw mm l = 0 := by
  induction l with
  | nil => rfl
  | cons x t ih =>
    rw [bestCombined_cons]
    have ht := ih (fun y hy hmy => h y (List.mem_cons_of_mem x hy) hmy)
    by_cases hm : sigMatching akw mm x = true
    · have hsc : x.2.score = some 0 := h x (List.mem_cons_self x t) hm
      rw [if_pos hm, ht]
      simp [sigCombined, hsc]
    · rw [if_neg (by simpa using hm)]
      exact ht

/-- **C9.** If every signal whose keyword intersection with the article
meets the minimum match count (2, the default) has engagement score 0,
the matcher returns no match — selection requires the combined score to
strictly exceed the initial best score 0 — and consequently the boost
pass leaves such an article entirely unchanged (in particular it is
never promoted to VIRAL). -/
theorem match_zero_engagement_never_viral (article : Article)
    (signals : TrendingSignals)
    (h : ∀ x ∈ labeledSignals signals,
      sigMatching (articleKeywords article) 2 x = true → x.2.score = some 0) :
    match_article_to_signals article signals = none
    ∧ boostOne signals article = article := by
  have hz : bestCombined (articleKeywords article) 2 (labeledSignals signals) = 0 :=
    bestCombined_eq_zero h
  have hnone : match_article_to_signals article signals = none := by
    rw [match_article_to_signals, foldl_matchStep_fst, hz]
    simp
  exact ⟨hnone, by rw [boostOne, hnone]⟩

/-- Witness for C9 at a concrete input: one matching reddit signal with
score 0. -/
theorem match_zero_engagement_never_viral_witness :
    match_article_to_signals alphaBetaArticle zeroScoreSignals = none
    ∧ boostOne zeroScoreSignals alphaBetaArticle = alphaBetaArticle := by
  exact match_zero_engagement_never_viral alphaBetaArticle zeroScoreSignals
    (by decide)

/-- **C2.** Viral promotion fires only on ROUTINE articles: the boost
pass maps the loop body over the articles; a matched article whose
current event type is ROUTINE is upgraded to VIRAL with priority 2 with
the matching signal recorded in `viral_match`, while an article whose
event type is anything else keeps its classification (event type and
priority) unchanged. -/
theorem boost_viral_only_routine (articles : List Article)
    (signals : TrendingSignals) (i : Fin articles.length)
    (ec : Classification)
    (hec : (articles.get i).event_classification = some ec) :
    (boost_viral_articles articles signals).get
        (Fin.cast (by simp [boost_viral_articles]) i)
      = boostOne signals (articles.get i)
    ∧ (∀ m, match_article_to_signals (articles.get i) signals = some m →
        ec.event_type = ROUTINE →
        boostOne signals (articles.get i)
          = { articles.get i with
                viral_match := some m,
                event_classification := some ⟨VIRAL, some 2, ec.confidence, ec.high_profile, true⟩ })
    ∧ (ec.event_type ≠ ROUTINE →
        (boostOne signals (articles.get i)).event_classification = some ec) := by
  refine ⟨?_, ?_, ?_⟩
  · simp [boost_viral_articles]
  · intro m hm hr
    obtain ⟨a, ha⟩ : ∃ a, articles.get i = a := ⟨_, rfl⟩
    rw [ha] at hec hm ⊢
    simp [boostOne, hm, hec, hr]
  · intro hne
    obtain ⟨a, ha⟩ : ∃ a, articles.get i = a := ⟨_, rfl⟩
    rw [ha] at hec ⊢
    rcases hmatch : match_article_to_signals a signals with _ | m
    · simp [boostOne, hmatch, hec]
    · simp [boostOne, hmatch, hec, hne]

/-- A matching reddit signal with positive engagement score. -/
def hotSignal : Signal :=
  { title := "alpha beta hot", score := some 10,
    keywords := some {"alpha", "beta"} }

/-- A signal set containing only `hotSignal`. -/
def hotSignals : TrendingSignals := { reddit := [hotSignal] }

/-- A ROUTINE-classified article matching `hotSignal`. -/
def routineArticle : Article :=
  { title := "alpha beta",
    event_classification := some ⟨ROUTINE, some 3, "default", false, false⟩ }

/-- Witness for C2 at a concrete input: the matched ROUTINE article is
upgraded to VIRAL with priority 2. -/
theorem boost_viral_only_routine_witness :
    (boostOne hotSignals routineArticle).event_classification
      = some ⟨VIRAL, some 2, "default", false, true⟩ := by
  have hm : (match_article_to_signals routineArticle hotSignals).isSome = true := by
    decide
  rcases Option.isSome_iff_exists.mp hm with ⟨m, hmeq⟩
  have h := (boost_viral_only_routine [routineArticle] hotSignals ⟨0, Nat.zero_lt_one⟩
    ⟨ROUTINE, some 3, "default", false, false⟩ rfl).2.1 m hmeq rfl
  rw [show routineArticle = [routineArticle].get ⟨0, Nat.zero_lt_one⟩ from rfl, h]

/-! ## `event_classifier.py` — priority queues, `orchestrator.py` — queue building -/

/-- `article.get('event_classification', {}).get('priority', 3)`. -/
def effPriority (a : Article) : Nat :=
  match a.event_classification with
  | none => 3
  | some ec => ec.priority.getD 3

/-- `article.get('event_classification', {}).get('high_profile')`
(truthiness of the missing key is `False`). -/
def highProfileFlag (a : Article) : Bool :=
  match a.event_classification with
  | none => false
  | some ec => ec.high_profile

/-- The sort key of `sort_by_priority`: `priority + (0 if high_profile
else 0.5)`. -/
def sortKey (a : Article) : Rat :=
  (effPriority a : Rat) + (if highProfileFlag a then 0 else 1 / 2)

/-- `sort_by_priority(articles)`: Python's stable ascending sort by
`sort_key`, modelled by the stable `mergeSort`. -/
def sort_by_priority (l : List Article) : List Article :=
  l.mergeSort (fun a b => decide (sortKey a ≤ sortKey b))

/-- The dict returned by `get_publishing_queues`. -/
structure Queues where
  breaking : List Article
  high : List Article
  routine : List Article
deriving DecidableEq

/-- `get_publishing_queues(articles)`: partition by effective priority
(`if priority == 1 / elif priority == 2 / else`), then sort each
bucket. -/
def get_publishing_queues (articles : List Article) : Queues :=
  let breaking := articles.filter (fun a => effPriority a == 1)
  let high := articles.filter (fun a => !(effPriority a == 1) && (effPriority a == 2))
  let routine := articles.filter (fun a => !(effPriority a == 1) && !(effPriority a == 2))
  { breaking := sort_by_priority breaking,
    high := sort_by_priority high,
    routine := sort_by_priority routine }

/-- Helper: a list splits, up to permutation, into the elements
satisfying `p`, those satisfying `q` but not `p`, and the rest. -/
theorem filter_partition_perm {α : Type} (p q : α → Bool) (l : List α) :
    (l.filter p ++ l.filter (fun a => !p a && q a)
      ++ l.filter (fun a => !p a && !q a)).Perm l := by
  induction l with
  | nil => simp
  | cons x t ih =>
    by_cases hp : p x = true
    · simp only [List.filter_cons, hp, Bool.not_true, Bool.false_and,
        if_true, if_false, Bool.false_eq_true]
      exact ih.cons x
    · have hp' : p x = false := by simpa using hp
      by_cases hq : q x = true
      · simp only [List.filter_cons, hp', hq, Bool.not_false, Bool.true_and,
          Bool.and_self, if_true, if_false, Bool.false_eq_true, Bool.not_true]
        exact (List.Perm.append_right _ List.perm_middle).trans (ih.cons x)
      · have hq' : q x = false := by simpa using hq
        simp only [List.filter_cons, hp', hq', Bool.not_false, Bool.true_and,
          Bool.and_self, if_true, if_false, Bool.false_eq_true, Bool.not_true]
        exact List.perm_middle.trans (ih.cons x)

/-- **C10.** Queue partitioning and intra-queue sorting are total on
articles missing the event classification (the embedding mirrors every
`dict.get` default, so no missing-key error exists): the three queues
are a permutation of the input, so every article lands in exactly one
queue; an article lacking `event_classification` or its `priority`
field has effective priority 3 and lands in the routine queue; and an
article lacking `event_classification` sorts as non-high-profile with
key `3 + 0.5`. -/
theorem get_publishing_queues_total (articles : List Article) :
    ((get_publishing_queues articles).breaking
      ++ (get_publishing_queues articles).high
      ++ (get_publishing_queues articles).routine).Perm articles
    ∧ (∀ a ∈ articles,
        (a.event_classification = none
          ∨ ∃ ec, a.event_classification = some ec ∧ ec.priority = none) →
        effPriority a = 3 ∧ a ∈ (get_publishing_queues articles).routine)
    ∧ (∀ a : Article, a.event_classification = none → sortKey a = 7 / 2) := by
  refine ⟨?_, ?_, ?_⟩
  · have h1 : ((get_publishing_queues articles).breaking).Perm
        (articles.filter (fun a => effPriority a == 1)) :=
      List.mergeSort_perm _ _
    have h2 : ((get_publishing_queues articles).high).Perm
        (articles.filter (fun a => !(effPriority a == 1) && (effPriority a == 2))) :=
      List.mergeSort_perm _ _
    have h3 : ((get_publishing_queues articles).routine).Perm
        (articles.filter (fun a => !(effPriority a == 1) && !(effPriority a == 2))) :=
      List.mergeSort_perm _ _
    exact ((h1.append h2).append h3).trans
      (filter_partition_perm (fun a => effPriority a == 1)
        (fun a => effPriority a == 2) articles)
  · intro a ha hmiss
    have hp : effPriority a = 3 := by
      rcases hmiss with h | ⟨ec, hec, hpr⟩
      · simp [effPriority, h]
      · simp [effPriority, hec, hpr]
    refine ⟨hp, ?_⟩
    have hmem : a ∈ articles.filter
        (fun a => !(effPriority a == 1) && !(effPriority a == 2)) :=
      List.mem_filter.mpr ⟨ha, by simp [hp]⟩
    exact ((List.mergeSort_perm _ _).mem_iff).mpr hmem
  · intro a h
    simp [sortKey, effPriority, highProfileFlag, h]
    norm_num

/-- An article carrying no event classification at all. -/
def bareArticle : Article := { title := "no classification here" }

/-- Witness for C10 at a concrete input: the unclassified article lands
in the routine queue with effective priority 3 and sort key 3.5. -/
theorem get_publishing_queues_total_witness :
    effPriority bareArticle = 3
    ∧ bareArticle ∈ (get_publishing_queues [bareArticle]).routine
    ∧ sortKey bareArticle = 7 / 2 := by
  have h := get_publishing_queues_total [bareArticle]
  have h2 := h.2.1 bareArticle (List.mem_singleton.mpr rfl) (Or.inl rfl)
  exact ⟨h2.1, h2.2, h.2.2 bareArticle rfl⟩

/-- `QUEUE_LIMITS["breaking"]`. -/
def QUEUE_LIMITS_breaking : Nat := 5

/-- `QUEUE_LIMITS["high"]`. -/
def QUEUE_LIMITS_high : Nat := 3

/-- `QUEUE_LIMITS["routine"]`. -/
def QUEUE_LIMITS_routine : Nat := 1

/-- The queue-consuming section of `run_pipeline` (steps 5's list
construction, with no manual `limit`): take up to 5 breaking and up to
3 high articles; append up to 1 routine article only when both the
breaking and high queues are empty; otherwise, when the selection so
far has fewer than 2 articles, append `routine[:1]` as filler. -/
def build_to_process (queues : Queues) : List Article :=
  let tp := queues.breaking.take QUEUE_LIMITS_breaking
    ++ queues.high.take QUEUE_LIMITS_high
  if queues.breaking.length = 0 ∧ queues.high.length = 0 then
    tp ++ queues.routine.take QUEUE_LIMITS_routine
  else if tp.length < 2 then
    tp ++ queues.routine.take 1
  else tp

/-- The number of tier-1 (urgent) articles of a classified input. -/
def tier1Count (articles : List Article) : Nat :=
  (articles.filter (fun a => effPriority a == 1)).length

/-- The number of tier-2 (elevated) articles of a classified input. -/
def tier2Count (articles : List Article) : Nat :=
  (articles.filter (fun a => !(effPriority a == 1) && (effPriority a == 2))).length

/-- The number of remaining (routine) articles of a classified input. -/
def tier3Count (articles : List Article) : Nat :=
  (articles.filter (fun a => !(effPriority a == 1) && !(effPriority a == 2))).length

/-- **C1.** With the default caps 5/3/1 and no external overall limit,
for a classified input with `N` tier-1, `M` tier-2 and `K` tier-3
articles the final processing list has length
`min N 5 + min M 3 + (min K 1 if N = 0 and M = 0)`, and the filler rule
adds exactly one more routine article when the combined selection after
the urgent and elevated takes has fewer than 2 articles and `K > 0`. -/
theorem build_to_process_length (articles : List Article) :
    (build_to_process (get_publishing_queues articles)).length
      = min (tier1Count articles) 5 + min (tier2Count articles) 3
        + (if tier1Count articles = 0 ∧ tier2Count articles = 0
           then min (tier3Count articles) 1
           else if min (tier1Count articles) 5 + min (tier2Count articles) 3 < 2
                  ∧ 0 < tier3Count articles
                then 1 else 0) := by
  have hb : (get_publishing_queues articles).breaking.length = tier1Count articles := by
    simp [get_publishing_queues, sort_by_priority, List.length_mergeSort, tier1Count]
  have hh : (get_publishing_queues articles).high.length = tier2Count articles := by
    simp [get_publishing_queues, sort_by_priority, List.length_mergeSort, tier2Count]
  have hr : (get_publishing_queues articles).routine.length = tier3Count articles := by
    simp [get_publishing_queues, sort_by_priority, List.length_mergeSort, tier3Count]
  rw [build_to_process]
  simp only [QUEUE_LIMITS_breaking, QUEUE_LIMITS_high, QUEUE_LIMITS_routine]
  split_ifs with h1 h2 h3 h4 h5 <;>
    simp_all [List.length_append, List.length_take, hb, hh, hr] <;>
    omega

/-! ## `publisher.py` — ledger and publishing -/

/-- A ledger entry of `save_article_to_db` (the fields relevant to the
uniqueness invariant; `slug` is `article.get('metadata', {}).get('slug')`,
which has no default). -/
structure DBEntry where
  id : String
  title : String
  slug : Option String
deriving DecidableEq

/-- The publisher's observable state: the `articles.json` ledger list
(newest first) and the names of HTML files written to the articles
directory. -/
structure PubState where
  articles_db : List DBEntry
  files : List String
deriving DecidableEq

/-- `article_exists(article_id)`: membership of the identifier among
the ledger entries. -/
def article_exists (article_id : String) (st : PubState) : Bool :=
  st.articles_db.any (fun e => e.id == article_id)

/-- `save_article_html(article)`: write a
`{slug or id}.html` file (content irrelevant to the ledger claims). -/
def save_article_html (a : Article) (st : PubState) : PubState :=
  { st with files := st.files ++ [(a.metadata_slug.getD a.id) ++ ".html"] }

/-- `save_article_to_db(article)`: insert the summary entry at the
front and keep only the most recent 500 entries. -/
def save_article_to_db (a : Article) (st : PubState) : PubState :=
  { st with articles_db :=
      (({ id := a.id, title := a.title, slug := a.metadata_slug } : DBEntry)
        :: st.articles_db).take 500 }

/-- `publish_article(article)`: refuse when the identifier is already
in the ledger, otherwise write the HTML file and append the ledger
entry. -/
def publish_article (a : Article) (st : PubState) : Bool × PubState :=
  if article_exists a.id st then (false, st)
  else (true, save_article_to_db a (save_article_html a st))

/-- **C7.** Publishing the same identifier twice in sequence yields
exactly one ledger entry for it: starting from a ledger not containing
the identifier, the first attempt succeeds and writes one file and one
entry, and the second attempt detects the existing identifier, reports
failure, and changes neither the ledger nor the output files. -/
theorem publish_article_idempotent (a : Article) (st : PubState)
    (hfresh : article_exists a.id st = false) :
    (publish_article a st).1 = true
    ∧ (publish_article a (publish_article a st).2).1 = false
    ∧ (publish_article a (publish_article a st).2).2 = (publish_article a st).2
    ∧ ((publish_article a st).2.articles_db.filter
        (fun e => e.id == a.id)).length = 1
    ∧ (publish_article a st).2.files.length = st.files.length + 1 := by
  have hall : ∀ e ∈ st.articles_db, ¬ e.id = a.id := by
    simpa [article_exists] using hfresh
  have hnotin : ∀ e ∈ st.articles_db, (e.id == a.id) = false := by
    intro e he
    simpa using hall e he
  have hstep : publish_article a st
      = (true, save_article_to_db a (save_article_html a st)) := by
    rw [publish_article, if_neg (by simp [hfresh])]
  have hdb : (publish_article a st).2.articles_db
      = (({ id := a.id, title := a.title, slug := a.metadata_slug } : DBEntry)
          :: st.articles_db).take 500 := by
    rw [hstep]; rfl
  have hexists2 : article_exists a.id (publish_article a st).2 = true := by
    rw [article_exists, hdb]
    cases st.articles_db with
    | nil => simp
    | cons e t => simp
  refine ⟨by rw [hstep], ?_, ?_, ?_, ?_⟩
  · rw [publish_article, if_pos (by simp [hexists2])]
  · rw [publish_article, if_pos (by simp [hexists2])]
  · rw [hdb]
    rw [show (500 : Nat) = 499 + 1 from rfl, List.take_succ_cons]
    rw [List.filter_cons_of_pos (by simp)]
    have hsub : ∀ e ∈ st.articles_db.take 499, (e.id == a.id) = false :=
      fun e he => hnotin e (List.mem_of_mem_take he)
    have hnilf : (st.articles_db.take 499).filter (fun e => e.id == a.id) = [] :=
      List.filter_eq_nil_iff.mpr (fun e he => by simp [hsub e he])
    simp [hnilf]
  · rw [hstep]
    simp [save_article_to_db, save_article_html]

/-- A fresh article for the ledger witness. -/
def freshArticle : Article :=
  { id := "art-1", title := "Some article", metadata_slug := some "some-article" }

/-- An empty publisher state. -/
def emptyPubState : PubState := { articles_db := [], files := [] }

/-- Witness for C7 at a concrete input: publishing `freshArticle` twice
from an empty ledger. -/
theorem publish_article_idempotent_witness :
    article_exists freshArticle.id emptyPubState = false
    ∧ (publish_article freshArticle emptyPubState).1 = true
    ∧ (publish_article freshArticle
        (publish_article freshArticle emptyPubState).2).1 = false
    ∧ ((publish_article freshArticle emptyPubState).2.articles_db.filter
        (fun e => e.id == freshArticle.id)).length = 1 := by
  have h := publish_article_idempotent freshArticle emptyPubState (by decide)
  exact ⟨by decide, h.1, h.2.1, h.2.2.2.1⟩

/-! ## `orchestrator.py` — `main` and the process exit code -/

/-- The fields of the `run_pipeline` result dict that `main` inspects
for the exit-code decision. -/
structure PipelineResults where
  articles_published : Nat
  errors : List String
deriving DecidableEq

/-- The exit-code logic of `main`: `sys.exit(1)` only when nothing was
published, the run was not a dry run (`--test`), and the error list is
non-empty (truthy); a normal return gives exit code 0. -/
def main_exit_code (results : PipelineResults) (test : Bool) : Nat :=
  if results.articles_published = 0 ∧ test = false then
    if !results.errors.isEmpty then 1 else 0
  else 0

/-- **C8.** The process exit code is non-zero exactly when zero
articles were published, at least one error was recorded, and the
invocation was not a dry run; in every other case it is zero (and the
only non-zero code is 1). -/
theorem main_exit_code_spec (results : PipelineResults) (test : Bool) :
    (main_exit_code results test ≠ 0
      ↔ (results.articles_published = 0 ∧ results.errors ≠ [] ∧ test = false))
    ∧ (main_exit_code results test = 0 ∨ main_exit_code results test = 1) := by
  unfold main_exit_code
  by_cases h1 : results.articles_published = 0 ∧ test = false
  · rw [if_pos h1]
    by_cases h2 : results.errors.isEmpty
    · have he : results.errors = [] := by simpa using h2
      rw [if_neg (by simp [h2])]
      simp [he]
    · have he : results.errors ≠ [] := by simpa using h2
      rw [if_pos (by simpa using h2)]
      simp [he, h1.1, h1.2]
  · rw [if_neg h1]
    constructor
    · simp only [ne_eq, not_true_eq_false, false_iff]
      intro hcon
      exact h1 ⟨hcon.1, hcon.2.2⟩
    · exact Or.inl rfl
